import Mathlib

/-!
Verification of the conversion driver between (co)graphic matrices and graphs
(`src/main/graphic_main.c` of the cmr repository).

The development shallowly embeds the driver: the file-format enumeration, the
orientation-aware serializer of `matrixToGraph`, the violator-submatrix output,
the forest-extraction scans and reconstruction-engine call of `graphToMatrix`,
and the command-line/exit-code logic of `main`.  External collaborators
(the recognition engine `CMRtestGraphicMatrix`/`CMRtestCographicMatrix`, the
reconstruction engine `CMRcomputeGraphicMatrix`, and the matrix printers) are
modelled as parameters or from their documented contracts.  Only `stdout` is
modelled; the driver's `stderr` diagnostics are ignored.
-/

/-- The `FileFormat` enumeration of `graphic_main.c` (lines 11-18). -/
inductive FileFormat where
  | FILEFORMAT_UNDEFINED
  | FILEFORMAT_MATRIX_DENSE
  | FILEFORMAT_MATRIX_SPARSE
  | FILEFORMAT_GRAPH_EDGELIST
  | FILEFORMAT_GRAPH_DOT
deriving DecidableEq, Repr

/-- Modelled from the spec: a graph as seen by the serializer.  `CMR_GRAPH_EDGE`
is an integer edge identifier; `CMRgraphEdgeU` / `CMRgraphEdgeV` return the two
endpoint nodes of an edge (spec section 2: "edges, each edge carrying two
endpoint nodes"). -/
structure Graph where
  edgeU : Int → Int
  edgeV : Int → Int

/-- The endpoint-resolution pattern repeated in every serializer loop of
`matrixToGraph` (e.g. lines 112-120): fetch `u` and `v`, then swap them when the
reversal array is present (non-NULL) and set for the edge
(`if (edgesReversed && edgesReversed[e])`). -/
def resolveEndpoints (graph : Graph) (edgesReversed : Option (Int → Bool)) (e : Int) :
    Int × Int :=
  let u := graph.edgeU e
  let v := graph.edgeV e
  match edgesReversed with
  | some rev => if rev e then (v, u) else (u, v)
  | none => (u, v)

/-- A C loop `for (k = 0; k < n; ++k) print(line k);` emits the lines for
indices `0, 1, ..., n-1` in this order; embedded as the list of emitted lines. -/
def emitLoop (line : Nat → String) : Nat → List String
  | 0 => []
  | n + 1 => emitLoop line n ++ [line n]

/-- One `printf("%d %d r%ld\n", u, v, row+1)` line (lines 134, 150). -/
def printRowLine (u v : Int) (row : Nat) : String :=
  s!"{u} {v} r{row + 1}"

/-- One `printf("%d %d c%ld\n", u, v, column+1)` line (lines 121, 163). -/
def printColLine (u v : Int) (column : Nat) : String :=
  s!"{u} {v} c{column + 1}"

/-- The edge-list serialization of `matrixToGraph` (lines 106-165).  In the
cographic case, columns come first and take their edge from `rowEdges`, then
rows take theirs from `columnEdges`; in the graphic case, rows come first from
`rowEdges`, then columns from `columnEdges`. -/
def edgelistOutput (cographic : Bool) (graph : Graph) (edgesReversed : Option (Int → Bool))
    (rowEdges columnEdges : Nat → Int) (numRows numColumns : Nat) : List String :=
  if cographic then
    emitLoop (fun column =>
      let e := rowEdges column
      let p := resolveEndpoints graph edgesReversed e
      printColLine p.1 p.2 column) numColumns ++
    emitLoop (fun row =>
      let e := columnEdges row
      let p := resolveEndpoints graph edgesReversed e
      printRowLine p.1 p.2 row) numRows
  else
    emitLoop (fun row =>
      let e := rowEdges row
      let p := resolveEndpoints graph edgesReversed e
      printRowLine p.1 p.2 row) numRows ++
    emitLoop (fun column =>
      let e := columnEdges column
      let p := resolveEndpoints graph edgesReversed e
      printColLine p.1 p.2 column) numColumns

/-- One dot row line (line 182); `CMRelementString (CMRrowToElement row)` renders
as `r<row+1>` — modelled from the spec (section 3: "stable string rendering
rN / cN, 1-based for display"). -/
def dotRowLine (u v : Int) (row : Nat) : String :=
  s!" v_{u} -- v_{v} [label=\"r{row + 1}\",style=bold,color=red];"

/-- One dot column line (line 196), rendering `c<column+1>`. -/
def dotColLine (u v : Int) (column : Nat) : String :=
  s!" v_{u} -- v_{v} [label=\"c{column + 1}\"];"

/-- The dot serialization of `matrixToGraph` (lines 167-199).  Note that this
branch does not look at the `cographic` flag: rows always take their edge from
`rowEdges` and columns from `columnEdges`. -/
def dotOutput (graph : Graph) (edgesReversed : Option (Int → Bool))
    (rowEdges columnEdges : Nat → Int) (numRows numColumns : Nat) : List String :=
  ["graph G \x7b"] ++
  emitLoop (fun row =>
    let e := rowEdges row
    let p := resolveEndpoints graph edgesReversed e
    dotRowLine p.1 p.2 row) numRows ++
  emitLoop (fun column =>
    let e := columnEdges column
    let p := resolveEndpoints graph edgesReversed e
    dotColLine p.1 p.2 column) numColumns ++
  ["\x7d"]

/-- The graph-serialization dispatch of `matrixToGraph` on a positive verdict
(lines 106-199): edge-list or dot, nothing for other output formats. -/
def serializeGraphOutput (cographic : Bool) (outputFormat : FileFormat) (graph : Graph)
    (edgesReversed : Option (Int → Bool)) (rowEdges columnEdges : Nat → Int)
    (numRows numColumns : Nat) : List String :=
  if outputFormat = FileFormat.FILEFORMAT_GRAPH_EDGELIST then
    edgelistOutput cographic graph edgesReversed rowEdges columnEdges numRows numColumns
  else if outputFormat = FileFormat.FILEFORMAT_GRAPH_DOT then
    dotOutput graph edgesReversed rowEdges columnEdges numRows numColumns
  else
    []

/-- In `matrixToGraph`, `bool* edgesReversed = NULL;` (line 83) and neither
recognition call (lines 91-97) receives `&edgesReversed`, so the array stays
NULL for the whole function. -/
def matrixToGraphEdgesReversed : Option (Int → Bool) := none

/-- The serialization performed by `matrixToGraph` on a positive verdict: the
general serializer with the reversal array absent. -/
def matrixToGraphSerialize (cographic : Bool) (outputFormat : FileFormat) (graph : Graph)
    (rowEdges columnEdges : Nat → Int) (numRows numColumns : Nat) : List String :=
  serializeGraphOutput cographic outputFormat graph matrixToGraphEdgesReversed
    rowEdges columnEdges numRows numColumns

/-- The `CMR_CHRMAT` matrix: dimensions plus entries in `{-1, 0, +1}` (spec
section 3); the sparse storage layout is abstracted into an entry function. -/
structure CMR_CHRMAT where
  numRows : Nat
  numColumns : Nat
  entry : Nat → Nat → Int

/-- The `CMR_SUBMAT` violator witness: an ordered list of row indices and one of
column indices (`submatrix->rows`, `submatrix->columns`). -/
structure CMR_SUBMAT where
  rows : List Nat
  columns : List Nat
deriving DecidableEq

/-- Modelled from the spec: `CMRchrmatPrintDense` is an external collaborator;
dense format is a "fixed-width grid of symbols with a configurable zero-symbol"
(section 6), called with zero-symbol `'0'` (lines 232, 338): one line per row. -/
def printDense (matrix : CMR_CHRMAT) : List String :=
  (List.range matrix.numRows).map (fun i =>
    String.intercalate " " ((List.range matrix.numColumns).map (fun j =>
      let x := matrix.entry i j
      if x = 0 then "0" else toString x)))

/-- Modelled from the spec: `CMRchrmatPrintSparse` is an external collaborator;
sparse format is "a row/column/value triple list" (section 6): one line per
nonzero entry. -/
def printSparse (matrix : CMR_CHRMAT) : List String :=
  ((List.range matrix.numRows).map (fun i =>
    ((List.range matrix.numColumns).filter (fun j => matrix.entry i j ≠ 0)).map (fun j =>
      let x := matrix.entry i j
      s!"{i + 1} {j + 1} {x}"))).flatten

/-- Modelled from the spec: `CMRchrmatZoomSubmat` is an external collaborator
that "materializes the induced sub-matrix" (section 4.3) selected by the
violator's row and column index lists. -/
def CMRchrmatZoomSubmat (matrix : CMR_CHRMAT) (sub : CMR_SUBMAT) : CMR_CHRMAT :=
  { numRows := sub.rows.length
    numColumns := sub.columns.length
    entry := fun i j => matrix.entry (sub.rows.getD i 0) (sub.columns.getD j 0) }

/-- The two stdout lines of the violator-element block (lines 214-220):
`printf("%ld rows:", ...)` with one `" %ld"` per row index (1-based), then a
newline, `printf("\n%ld columns: ", ...)` with one `" %ld"` per column index. -/
def submatrixElementLines (sub : CMR_SUBMAT) : List String :=
  let nr := sub.rows.length
  let nc := sub.columns.length
  [s!"{nr} rows:" ++ String.join (sub.rows.map (fun r => s!" {r + 1}")),
   s!"{nc} columns: " ++ String.join (sub.columns.map (fun c => s!" {c + 1}"))]

/-- The matrix-format dispatch used for a violator matrix (lines 231-234) and
for the reconstructed matrix (lines 337-342): dense or sparse, nothing
otherwise. -/
def matrixFormatPrint (fmt : FileFormat) (matrix : CMR_CHRMAT) : List String :=
  if fmt = FileFormat.FILEFORMAT_MATRIX_DENSE then printDense matrix
  else if fmt = FileFormat.FILEFORMAT_MATRIX_SPARSE then printSparse matrix
  else []

/-- The violator output of `matrixToGraph` (lines 208-236), with the submatrix
pointer threaded explicitly: the elements branch ends with
`CMRsubmatFree(cmr, &submatrix)`, and CMR free functions take the address of the
pointer and reset it to NULL, so the pointer the matrix branch tests afterwards
is NULL whenever the elements branch ran. -/
def matrixToGraphViolatorOutput (inputFormat : FileFormat)
    (outputNonGraphicElements outputNonGraphicMatrix : Bool)
    (matrix : CMR_CHRMAT) (submatrix : Option CMR_SUBMAT) : List String :=
  let afterElements : List String × Option CMR_SUBMAT :=
    match submatrix with
    | some sub =>
      if outputNonGraphicElements then (submatrixElementLines sub, none)
      else ([], some sub)
    | none => ([], none)
  let matrixBlock : List String :=
    match afterElements.2 with
    | some sub =>
      if outputNonGraphicMatrix then
        matrixFormatPrint inputFormat (CMRchrmatZoomSubmat matrix sub)
      else []
    | none => []
  afterElements.1 ++ matrixBlock

/-- Modelled from the spec: `CMR_ELEMENT` (section 3, "Element Index"): a
discriminated value, either `Row(i)` or `Column(j)` (0-based), or no tag at all
(`CMRelementIsRow` / `CMRelementIsColumn` both false). -/
inductive CMR_ELEMENT where
  | rowElem (i : Nat)
  | columnElem (j : Nat)
  | invalidElem
deriving DecidableEq

/-- The counting scan of `graphToMatrix` (lines 277-288): one pass over the
graph's edges counting Row-tagged and Column-tagged edges.  The graph's edge
iteration (`CMRgraphEdgesFirst` / `Next`) is embedded as a list of edge
identifiers, and `edgeElements` as the tag lookup. -/
def countScan (edgeElements : Nat → CMR_ELEMENT) : List Nat → Nat × Nat
  | [] => (0, 0)
  | e :: rest =>
    let p := countScan edgeElements rest
    match edgeElements e with
    | CMR_ELEMENT.rowElem _ => (p.1 + 1, p.2)
    | CMR_ELEMENT.columnElem _ => (p.1, p.2 + 1)
    | CMR_ELEMENT.invalidElem => p

/-- The filling scan of `graphToMatrix` (lines 300-316): for an edge tagged
`Row(i)`, write the edge into `forestEdges[i]` when `i < numForestEdges`;
symmetrically for columns; any other edge is skipped. -/
def fillScan (numForestEdges numCoforestEdges : Nat) (edgeElements : Nat → CMR_ELEMENT) :
    List Nat → List Int × List Int → List Int × List Int
  | [], arrays => arrays
  | e :: rest, arrays =>
    match edgeElements e with
    | CMR_ELEMENT.rowElem i =>
      if i < numForestEdges then
        fillScan numForestEdges numCoforestEdges edgeElements rest
          (arrays.1.set i (Int.ofNat e), arrays.2)
      else
        fillScan numForestEdges numCoforestEdges edgeElements rest arrays
    | CMR_ELEMENT.columnElem j =>
      if j < numCoforestEdges then
        fillScan numForestEdges numCoforestEdges edgeElements rest
          (arrays.1, arrays.2.set j (Int.ofNat e))
      else
        fillScan numForestEdges numCoforestEdges edgeElements rest arrays
    | CMR_ELEMENT.invalidElem =>
      fillScan numForestEdges numCoforestEdges edgeElements rest arrays

/-- Forest Extraction (lines 277-316): count the tagged edges, allocate the two
arrays with every slot at the sentinel `-1` (lines 291-298), then run the
filling scan. -/
def forestExtraction (edgeElements : Nat → CMR_ELEMENT) (edges : List Nat) :
    List Int × List Int :=
  let counts := countScan edgeElements edges
  fillScan counts.1 counts.2 edgeElements edges
    (List.replicate counts.1 (-1), List.replicate counts.2 (-1))

/-- The argument tuple of the `CMRcomputeGraphicMatrix` invocation (lines
323-332).  `graphicSlot` records whether the third argument (the graphic
matrix output `&matrix`) is non-NULL, `cographicSlot` whether the fourth
(the cographic/transpose output) is. -/
structure ComputeGraphicCall where
  graphicSlot : Bool
  cographicSlot : Bool
  numForestEdges : Nat
  forestEdges : List Int
  numCoforestEdges : Nat
  coforestEdges : List Int

/-- The reconstruction-engine call site of `graphToMatrix` (lines 277-332):
forest extraction followed by `CMRcomputeGraphicMatrix` with
`(graph, NULL, &matrix, ...)` when `cographic` and `(graph, &matrix, NULL, ...)`
otherwise. -/
def graphToMatrixEngineRequest (cographic : Bool) (edgeElements : Nat → CMR_ELEMENT)
    (edges : List Nat) : ComputeGraphicCall :=
  let counts := countScan edgeElements edges
  let arrays := forestExtraction edgeElements edges
  if cographic then
    { graphicSlot := false, cographicSlot := true
      numForestEdges := counts.1, forestEdges := arrays.1
      numCoforestEdges := counts.2, coforestEdges := arrays.2 }
  else
    { graphicSlot := true, cographicSlot := false
      numForestEdges := counts.1, forestEdges := arrays.1
      numCoforestEdges := counts.2, coforestEdges := arrays.2 }

/-- The stdout of `graphToMatrix` after reading the graph (lines 277-342): build
the engine request, obtain `(matrix, isCorrectForest)` from the external
reconstruction engine, and print the matrix in the chosen format; the code never
tests `isCorrectForest` before printing. -/
def graphToMatrixOutput (cographic : Bool) (outputFormat : FileFormat)
    (edgeElements : Nat → CMR_ELEMENT) (edges : List Nat)
    (engine : ComputeGraphicCall → CMR_CHRMAT × Bool) : List String :=
  let request := graphToMatrixEngineRequest cographic edgeElements edges
  let result := engine request
  matrixFormatPrint outputFormat result.1

/-- Modelled from the spec: the `CMR_ERROR` codes relevant to `main` (section 7,
external header): `CMR_OKAY`, `CMR_ERROR_INPUT`, `CMR_ERROR_MEMORY`;
`CMR_ERROR_OTHER` stands for every remaining code of the enumeration. -/
inductive CMR_ERROR where
  | CMR_OKAY
  | CMR_ERROR_INPUT
  | CMR_ERROR_MEMORY
  | CMR_ERROR_OTHER
deriving DecidableEq

/-- The local variables of `main` set during argument parsing (lines 358-364). -/
structure MainOptions where
  inputFormat : FileFormat
  outputFormat : FileFormat
  transposed : Bool
  instanceFileName : Option String
  outputNonGraphicElements : Bool
  outputNonGraphicMatrix : Bool
  printStats : Bool
deriving DecidableEq

/-- Initial values of `main`'s locals (lines 358-364). -/
def initialOptions : MainOptions :=
  { inputFormat := FileFormat.FILEFORMAT_UNDEFINED
    outputFormat := FileFormat.FILEFORMAT_UNDEFINED
    transposed := false
    instanceFileName := none
    outputNonGraphicElements := false
    outputNonGraphicMatrix := false
    printStats := false }

/-- Possible outcomes of `main`'s argument loop (lines 365-419): `-h` returns
`EXIT_SUCCESS` immediately, any usage error goes through `printUsage` and
returns `EXIT_FAILURE`, otherwise the conversion runs with the parsed options. -/
inductive ArgvOutcome where
  | helpExit
  | usageExit
  | runConversion (opts : MainOptions)
deriving DecidableEq

/-- The argument loop of `main` (lines 365-419).  An `-i` or `-o` as the last
argument fails the `a+1 < argc` guard and falls through to the positional-file
branch, exactly as in the source. -/
def parseLoop : List String → MainOptions → ArgvOutcome
  | [], opts => ArgvOutcome.runConversion opts
  | a :: rest, opts =>
    if a = "-h" then ArgvOutcome.helpExit
    else if a = "-t" then parseLoop rest { opts with transposed := true }
    else if a = "-n" then parseLoop rest { opts with outputNonGraphicElements := true }
    else if a = "-N" then parseLoop rest { opts with outputNonGraphicMatrix := true }
    else if a = "-s" then parseLoop rest { opts with printStats := true }
    else if a = "-i" then
      match rest with
      | fmt :: rest2 =>
        if fmt = "dense" then
          parseLoop rest2 { opts with inputFormat := FileFormat.FILEFORMAT_MATRIX_DENSE }
        else if fmt = "sparse" then
          parseLoop rest2 { opts with inputFormat := FileFormat.FILEFORMAT_MATRIX_SPARSE }
        else if fmt = "edgelist" then
          parseLoop rest2 { opts with inputFormat := FileFormat.FILEFORMAT_GRAPH_EDGELIST }
        else ArgvOutcome.usageExit
      | [] =>
        match opts.instanceFileName with
        | none => parseLoop [] { opts with instanceFileName := some a }
        | some _ => ArgvOutcome.usageExit
    else if a = "-o" then
      match rest with
      | fmt :: rest2 =>
        if fmt = "dense" then
          parseLoop rest2 { opts with outputFormat := FileFormat.FILEFORMAT_MATRIX_DENSE }
        else if fmt = "sparse" then
          parseLoop rest2 { opts with outputFormat := FileFormat.FILEFORMAT_MATRIX_SPARSE }
        else if fmt = "edgelist" then
          parseLoop rest2 { opts with outputFormat := FileFormat.FILEFORMAT_GRAPH_EDGELIST }
        else if fmt = "dot" then
          parseLoop rest2 { opts with outputFormat := FileFormat.FILEFORMAT_GRAPH_DOT }
        else ArgvOutcome.usageExit
      | [] =>
        match opts.instanceFileName with
        | none => parseLoop [] { opts with instanceFileName := some a }
        | some _ => ArgvOutcome.usageExit
    else
      match opts.instanceFileName with
      | none => parseLoop rest { opts with instanceFileName := some a }
      | some _ => ArgvOutcome.usageExit
termination_by l _ => l.length
decreasing_by all_goals simp_wf <;> omega

/-- Outcome of the format-defaulting block of `main` (lines 427-459). -/
inductive ResolveOutcome where
  | usage
  | resolved (inputFormat outputFormat : FileFormat)
deriving DecidableEq

/-- The format-defaulting block of `main` (lines 427-459), translated branch by
branch. -/
def resolveFormats (inputFormat outputFormat : FileFormat) : ResolveOutcome :=
  if inputFormat = FileFormat.FILEFORMAT_UNDEFINED then
    if outputFormat = FileFormat.FILEFORMAT_UNDEFINED then
      ResolveOutcome.resolved FileFormat.FILEFORMAT_MATRIX_DENSE
        FileFormat.FILEFORMAT_GRAPH_EDGELIST
    else if outputFormat = FileFormat.FILEFORMAT_MATRIX_DENSE ∨
        outputFormat = FileFormat.FILEFORMAT_MATRIX_SPARSE then
      ResolveOutcome.resolved FileFormat.FILEFORMAT_GRAPH_EDGELIST outputFormat
    else
      ResolveOutcome.resolved FileFormat.FILEFORMAT_MATRIX_DENSE outputFormat
  else if inputFormat = FileFormat.FILEFORMAT_MATRIX_DENSE ∨
      inputFormat = FileFormat.FILEFORMAT_MATRIX_SPARSE then
    if outputFormat = FileFormat.FILEFORMAT_UNDEFINED then
      ResolveOutcome.resolved inputFormat FileFormat.FILEFORMAT_GRAPH_EDGELIST
    else if outputFormat = FileFormat.FILEFORMAT_MATRIX_DENSE ∨
        outputFormat = FileFormat.FILEFORMAT_MATRIX_SPARSE then
      ResolveOutcome.usage
    else
      ResolveOutcome.resolved inputFormat outputFormat
  else
    if outputFormat = FileFormat.FILEFORMAT_UNDEFINED then
      ResolveOutcome.resolved inputFormat FileFormat.FILEFORMAT_MATRIX_DENSE
    else if ¬ (outputFormat = FileFormat.FILEFORMAT_MATRIX_DENSE ∨
        outputFormat = FileFormat.FILEFORMAT_MATRIX_SPARSE) then
      ResolveOutcome.usage
    else
      ResolveOutcome.resolved inputFormat outputFormat

/-- The exit code of `main` (lines 356-480), with the error returned by the
conversion (`matrixToGraph` / `graphToMatrix`, dependent on the external file
system and parsers) abstracted as a parameter.  `EXIT_SUCCESS = 0`,
`EXIT_FAILURE = 1`; the final switch (lines 470-480) maps exactly
`CMR_ERROR_INPUT` and `CMR_ERROR_MEMORY` to `EXIT_FAILURE`. -/
def mainExitCode (args : List String) (conversionError : CMR_ERROR) : Nat :=
  match parseLoop args initialOptions with
  | ArgvOutcome.helpExit => 0
  | ArgvOutcome.usageExit => 1
  | ArgvOutcome.runConversion opts =>
    match opts.instanceFileName with
    | none => 1
    | some _ =>
      match resolveFormats opts.inputFormat opts.outputFormat with
      | ResolveOutcome.usage => 1
      | ResolveOutcome.resolved _ _ =>
        match conversionError with
        | CMR_ERROR.CMR_ERROR_INPUT => 1
        | CMR_ERROR.CMR_ERROR_MEMORY => 1
        | _ => 0

/-- Spec section 4.2 wording for a line's endpoint pair: the edge's endpoints
"with u/v swapped if the reversal flag for that edge is set" (and the flag array
present at all). -/
def specOrientedPair (graph : Graph) (reversalFlags : Option (Int → Bool)) (e : Int) :
    Int × Int :=
  if (reversalFlags.map (fun flags => flags e)).getD false then
    (graph.edgeV e, graph.edgeU e)
  else
    (graph.edgeU e, graph.edgeV e)

/-- Spec section 4.2 wording for the edge-list form: "one line per row
r<i+1> and one line per column c<j+1>"; "in the graphic case, rows are
emitted before columns; in the cographic case, columns are emitted before
rows".  In the cographic case the roles swap (spec section 3), so a row line
takes its edge from the column-role array and vice versa. -/
def specEdgeListLines (cographic : Bool) (graph : Graph) (reversalFlags : Option (Int → Bool))
    (rowEdges columnEdges : Nat → Int) (numRows numColumns : Nat) : List String :=
  let rowLines := (List.range numRows).map (fun i =>
    let e := if cographic then columnEdges i else rowEdges i
    let p := specOrientedPair graph reversalFlags e
    let u := p.1
    let v := p.2
    s!"{u} {v} r{i + 1}")
  let colLines := (List.range numColumns).map (fun j =>
    let e := if cographic then rowEdges j else columnEdges j
    let p := specOrientedPair graph reversalFlags e
    let u := p.1
    let v := p.2
    s!"{u} {v} c{j + 1}")
  if cographic then colLines ++ rowLines else rowLines ++ colLines

/-- Claim C10 wording: the serializer with every endpoint-swap branch removed,
printing each edge's U endpoint before its V endpoint on every row and column
line of both formats. -/
def serializeNoSwapOutput (cographic : Bool) (outputFormat : FileFormat) (graph : Graph)
    (rowEdges columnEdges : Nat → Int) (numRows numColumns : Nat) : List String :=
  if outputFormat = FileFormat.FILEFORMAT_GRAPH_EDGELIST then
    if cographic then
      emitLoop (fun column =>
        printColLine (graph.edgeU (rowEdges column)) (graph.edgeV (rowEdges column)) column)
        numColumns ++
      emitLoop (fun row =>
        printRowLine (graph.edgeU (columnEdges row)) (graph.edgeV (columnEdges row)) row)
        numRows
    else
      emitLoop (fun row =>
        printRowLine (graph.edgeU (rowEdges row)) (graph.edgeV (rowEdges row)) row)
        numRows ++
      emitLoop (fun column =>
        printColLine (graph.edgeU (columnEdges column)) (graph.edgeV (columnEdges column)) column)
        numColumns
  else if outputFormat = FileFormat.FILEFORMAT_GRAPH_DOT then
    ["graph G \x7b"] ++
    emitLoop (fun row =>
      dotRowLine (graph.edgeU (rowEdges row)) (graph.edgeV (rowEdges row)) row) numRows ++
    emitLoop (fun column =>
      dotColLine (graph.edgeU (columnEdges column)) (graph.edgeV (columnEdges column)) column)
      numColumns ++
    ["\x7d"]
  else []

/-- A concrete graph for counterexamples: edges 0, 1, 5, 6 with pairwise
distinct endpoints. -/
def cexGraph : Graph :=
  { edgeU := fun e => if e = 0 then 10 else if e = 1 then 12 else if e = 5 then 20 else 22
    edgeV := fun e => if e = 0 then 11 else if e = 1 then 13 else if e = 5 then 21 else 23 }

/-- A concrete row-to-edge array for counterexamples. -/
def cexRowEdges : Nat → Int := fun j => if j = 0 then 0 else 1

/-- A concrete column-to-edge array for counterexamples. -/
def cexColumnEdges : Nat → Int := fun i => if i = 0 then 5 else 6

/-- A concrete input matrix for the violator-output scenario. -/
def cexViolatorMatrix : CMR_CHRMAT :=
  { numRows := 2, numColumns := 2, entry := fun i j => if i = j then 1 else -1 }

/-- A concrete violator submatrix selecting both rows and both columns. -/
def cexViolatorSubmat : CMR_SUBMAT := { rows := [0, 1], columns := [0, 1] }

/-- A concrete tag assignment: edge 0 is Row 0, edge 1 is Column 0, edge 2 is
Row 1, everything else untagged. -/
def cexTags : Nat → CMR_ELEMENT := fun e =>
  if e = 0 then CMR_ELEMENT.rowElem 0
  else if e = 1 then CMR_ELEMENT.columnElem 0
  else if e = 2 then CMR_ELEMENT.rowElem 1
  else CMR_ELEMENT.invalidElem

/-- A concrete tag assignment with an out-of-range row index: edge 5 is tagged
Row 7, everything else Row 0. -/
def cexOutOfRangeTags : Nat → CMR_ELEMENT := fun e =>
  if e = 5 then CMR_ELEMENT.rowElem 7 else CMR_ELEMENT.rowElem 0

theorem emitLoop_eq_map (line : Nat → String) (n : Nat) :
    emitLoop line n = (List.range n).map line := by
  induction n with
  | zero => rfl
  | succ n ih => simp [emitLoop, List.range_succ, ih]

theorem resolveEndpoints_eq_specOrientedPair (graph : Graph)
    (edgesReversed : Option (Int → Bool)) (e : Int) :
    resolveEndpoints graph edgesReversed e = specOrientedPair graph edgesReversed e := by
  cases edgesReversed <;> simp [resolveEndpoints, specOrientedPair]

/-- C4: on every positive verdict with edge-list output, each row i yields one
line "<u> <v> r<i+1>" and each column j one line "<u> <v> c<j+1>", with u and v
swapped exactly when the reversal flag for that edge is present and set; in the
graphic case all row lines precede all column lines, and in the cographic case
all column lines precede all row lines. -/
theorem edgelistOutput_eq_specEdgeListLines (cographic : Bool) (graph : Graph)
    (reversalFlags : Option (Int → Bool)) (rowEdges columnEdges : Nat → Int)
    (numRows numColumns : Nat) :
    edgelistOutput cographic graph reversalFlags rowEdges columnEdges numRows numColumns =
      specEdgeListLines cographic graph reversalFlags rowEdges columnEdges numRows numColumns := by
  cases cographic <;>
    simp [edgelistOutput, specEdgeListLines, emitLoop_eq_map, printRowLine, printColLine,
      resolveEndpoints_eq_specOrientedPair]

/-- C1 (amended): on a positive cographic verdict the role swap (column j's edge
from rowEdges, row i's edge from columnEdges) is applied by the edge-list
serialization only; the dot serialization ignores the direction and takes row
i's edge from rowEdges and column j's edge from columnEdges. -/
theorem cographicSerialize_roles (graph : Graph) (rowEdges columnEdges : Nat → Int)
    (numRows numColumns : Nat) :
    matrixToGraphSerialize true FileFormat.FILEFORMAT_GRAPH_EDGELIST graph
        rowEdges columnEdges numRows numColumns =
      (List.range numColumns).map (fun j =>
        printColLine (graph.edgeU (rowEdges j)) (graph.edgeV (rowEdges j)) j) ++
      (List.range numRows).map (fun i =>
        printRowLine (graph.edgeU (columnEdges i)) (graph.edgeV (columnEdges i)) i) ∧
    matrixToGraphSerialize true FileFormat.FILEFORMAT_GRAPH_DOT graph
        rowEdges columnEdges numRows numColumns =
      ["graph G \x7b"] ++
      (List.range numRows).map (fun i =>
        dotRowLine (graph.edgeU (rowEdges i)) (graph.edgeV (rowEdges i)) i) ++
      (List.range numColumns).map (fun j =>
        dotColLine (graph.edgeU (columnEdges j)) (graph.edgeV (columnEdges j)) j) ++
      ["\x7d"] := by
  constructor <;>
    simp [matrixToGraphSerialize, serializeGraphOutput, edgelistOutput, dotOutput,
      matrixToGraphEdgesReversed, emitLoop_eq_map, resolveEndpoints]

/-- C1 counterexample: in the cographic direction with dot output and one row,
the emitted row line takes its edge from rowEdges (edge 0, endpoints 10, 11),
not from columnEdges (edge 5, endpoints 20, 21) as the claim predicts for the
dot format. -/
theorem cographicDot_no_swap_cex :
    matrixToGraphSerialize true FileFormat.FILEFORMAT_GRAPH_DOT cexGraph
        cexRowEdges cexColumnEdges 1 0 =
      ["graph G \x7b",
       " v_10 -- v_11 [label=\"r1\",style=bold,color=red];",
       "\x7d"] ∧
    matrixToGraphSerialize true FileFormat.FILEFORMAT_GRAPH_DOT cexGraph
        cexRowEdges cexColumnEdges 1 0 ≠
      ["graph G \x7b",
       " v_20 -- v_21 [label=\"r1\",style=bold,color=red];",
       "\x7d"] := by
  constructor
  · rfl
  · decide

/-- C3 (amended): for a 2x2 matrix in the graphic direction with edge-list
output, the serializer emits "<u0> <v0> r1" then "<u1> <v1> r2", followed by one
column line per column of the matrix: "<.> <.> c1" then "<.> <.> c2". -/
theorem graphicEdgelist_two_by_two (graph : Graph) (rowEdges columnEdges : Nat → Int) :
    matrixToGraphSerialize false FileFormat.FILEFORMAT_GRAPH_EDGELIST graph
        rowEdges columnEdges 2 2 =
      [printRowLine (graph.edgeU (rowEdges 0)) (graph.edgeV (rowEdges 0)) 0,
       printRowLine (graph.edgeU (rowEdges 1)) (graph.edgeV (rowEdges 1)) 1,
       printColLine (graph.edgeU (columnEdges 0)) (graph.edgeV (columnEdges 0)) 0,
       printColLine (graph.edgeU (columnEdges 1)) (graph.edgeV (columnEdges 1)) 1] := by
  simp [matrixToGraphSerialize, serializeGraphOutput, edgelistOutput,
    matrixToGraphEdgesReversed, emitLoop, resolveEndpoints]

/-- C3 counterexample: at a concrete positive graphic verdict for a 2x2 matrix,
the edge-list output is not of the claimed form "two row lines and nothing
else": it has four lines (two column lines follow). -/
theorem graphicEdgelist_two_by_two_cex :
    ¬ ∃ u0 v0 u1 v1 : Int,
      matrixToGraphSerialize false FileFormat.FILEFORMAT_GRAPH_EDGELIST cexGraph
          cexRowEdges cexColumnEdges 2 2 =
        [s!"{u0} {v0} r1", s!"{u1} {v1} r2"] := by
  rintro ⟨u0, v0, u1, v1, h⟩
  have h2 : (matrixToGraphSerialize false FileFormat.FILEFORMAT_GRAPH_EDGELIST cexGraph
      cexRowEdges cexColumnEdges 2 2).length = 2 := by
    rw [h]; rfl
  have h4 : (matrixToGraphSerialize false FileFormat.FILEFORMAT_GRAPH_EDGELIST cexGraph
      cexRowEdges cexColumnEdges 2 2).length = 4 := by rfl
  omega

/-- C10: in the matrix-to-graph direction the reversal-flag array is absent
(NULL), so the serialization coincides, for both directions and both output
formats, with the serializer that always prints the U endpoint before the V
endpoint and has every swap branch removed. -/
theorem matrixToGraphSerialize_no_swap (cographic : Bool) (outputFormat : FileFormat)
    (graph : Graph) (rowEdges columnEdges : Nat → Int) (numRows numColumns : Nat) :
    matrixToGraphSerialize cographic outputFormat graph rowEdges columnEdges
        numRows numColumns =
      serializeNoSwapOutput cographic outputFormat graph rowEdges columnEdges
        numRows numColumns := by
  rfl

/-- C2: when both the violator element list and the violator matrix are
requested, the elements branch frees the submatrix (resetting the pointer to
NULL), so only the element lines are printed and the induced sub-matrix block is
skipped; when only the matrix is requested, it is printed (and is nonempty
here), showing the skip comes from the elements branch. -/
theorem violatorOutput_skips_matrix_when_both :
    matrixToGraphViolatorOutput FileFormat.FILEFORMAT_MATRIX_DENSE true true
        cexViolatorMatrix (some cexViolatorSubmat) =
      submatrixElementLines cexViolatorSubmat ∧
    matrixToGraphViolatorOutput FileFormat.FILEFORMAT_MATRIX_DENSE false true
        cexViolatorMatrix (some cexViolatorSubmat) =
      printDense (CMRchrmatZoomSubmat cexViolatorMatrix cexViolatorSubmat) ∧
    printDense (CMRchrmatZoomSubmat cexViolatorMatrix cexViolatorSubmat) ≠ [] := by
  refine ⟨rfl, rfl, by decide⟩

/-- C7: the reconstruction-engine call of graphToMatrix requests exactly one
output slot: the cographic slot exactly when the cographic flag is set, the
graphic slot exactly when it is not; the two are never requested together and
one is always requested. -/
theorem engineRequest_slots (cographic : Bool) (edgeElements : Nat → CMR_ELEMENT)
    (edges : List Nat) :
    (graphToMatrixEngineRequest cographic edgeElements edges).cographicSlot = cographic ∧
    (graphToMatrixEngineRequest cographic edgeElements edges).graphicSlot = !cographic ∧
    ((graphToMatrixEngineRequest cographic edgeElements edges).graphicSlot ≠
      (graphToMatrixEngineRequest cographic edgeElements edges).cographicSlot) := by
  cases cographic <;> simp [graphToMatrixEngineRequest]

/-- C8: the stdout of graphToMatrix does not depend on the isCorrectForest
boolean returned by the reconstruction engine, and even with
isCorrectForest = false the reconstructed matrix is serialized in the requested
format. -/
theorem graphToMatrixOutput_ignores_isCorrectForest (cographic : Bool)
    (outputFormat : FileFormat) (edgeElements : Nat → CMR_ELEMENT) (edges : List Nat)
    (engineMatrix : ComputeGraphicCall → CMR_CHRMAT) (b1 b2 : Bool) :
    graphToMatrixOutput cographic outputFormat edgeElements edges
        (fun request => (engineMatrix request, b1)) =
      graphToMatrixOutput cographic outputFormat edgeElements edges
        (fun request => (engineMatrix request, b2)) ∧
    graphToMatrixOutput cographic outputFormat edgeElements edges
        (fun request => (engineMatrix request, false)) =
      matrixFormatPrint outputFormat
        (engineMatrix (graphToMatrixEngineRequest cographic edgeElements edges)) := by
  exact ⟨rfl, rfl⟩

theorem fillScan_length (nF nC : Nat) (tags : Nat → CMR_ELEMENT) (edges : List Nat)
    (F C : List Int) :
    (fillScan nF nC tags edges (F, C)).1.length = F.length ∧
    (fillScan nF nC tags edges (F, C)).2.length = C.length := by
  induction edges generalizing F C with
  | nil => exact ⟨rfl, rfl⟩
  | cons e rest ih =>
    cases htag : tags e with
    | rowElem i =>
      by_cases hlt : i < nF
      · simpa [fillScan, htag, hlt, List.length_set] using ih (F.set i (Int.ofNat e)) C
      · simpa [fillScan, htag, hlt] using ih F C
    | columnElem j =>
      by_cases hlt : j < nC
      · simpa [fillScan, htag, hlt, List.length_set] using ih F (C.set j (Int.ofNat e))
      · simpa [fillScan, htag, hlt] using ih F C
    | invalidElem => simpa [fillScan, htag] using ih F C

theorem fillScan_frame_row (nF nC : Nat) (tags : Nat → CMR_ELEMENT) (edges : List Nat)
    (F C : List Int) (i : Nat) (h : ∀ e ∈ edges, tags e ≠ CMR_ELEMENT.rowElem i) :
    (fillScan nF nC tags edges (F, C)).1[i]? = F[i]? := by
  induction edges generalizing F C with
  | nil => rfl
  | cons e rest ih =>
    have he : tags e ≠ CMR_ELEMENT.rowElem i := h e (List.mem_cons_self e rest)
    have hrest : ∀ e2 ∈ rest, tags e2 ≠ CMR_ELEMENT.rowElem i :=
      fun e2 he2 => h e2 (List.mem_cons_of_mem e he2)
    cases htag : tags e with
    | rowElem i2 =>
      have hne : i2 ≠ i := fun hh => he (by rw [htag, hh])
      by_cases hlt : i2 < nF
      · rw [show fillScan nF nC tags (e :: rest) (F, C) =
            fillScan nF nC tags rest (F.set i2 (Int.ofNat e), C) by simp [fillScan, htag, hlt]]
        rw [ih (F.set i2 (Int.ofNat e)) C hrest]
        exact List.getElem?_set_ne hne
      · rw [show fillScan nF nC tags (e :: rest) (F, C) =
            fillScan nF nC tags rest (F, C) by simp [fillScan, htag, hlt]]
        exact ih F C hrest
    | columnElem j =>
      by_cases hlt : j < nC
      · rw [show fillScan nF nC tags (e :: rest) (F, C) =
            fillScan nF nC tags rest (F, C.set j (Int.ofNat e)) by simp [fillScan, htag, hlt]]
        exact ih F (C.set j (Int.ofNat e)) hrest
      · rw [show fillScan nF nC tags (e :: rest) (F, C) =
            fillScan nF nC tags rest (F, C) by simp [fillScan, htag, hlt]]
        exact ih F C hrest
    | invalidElem =>
      rw [show fillScan nF nC tags (e :: rest) (F, C) =
          fillScan nF nC tags rest (F, C) by simp [fillScan, htag]]
      exact ih F C hrest

theorem fillScan_frame_col (nF nC : Nat) (tags : Nat → CMR_ELEMENT) (edges : List Nat)
    (F C : List Int) (j : Nat) (h : ∀ e ∈ edges, tags e ≠ CMR_ELEMENT.columnElem j) :
    (fillScan nF nC tags edges (F, C)).2[j]? = C[j]? := by
  induction edges generalizing F C with
  | nil => rfl
  | cons e rest ih =>
    have he : tags e ≠ CMR_ELEMENT.columnElem j := h e (List.mem_cons_self e rest)
    have hrest : ∀ e2 ∈ rest, tags e2 ≠ CMR_ELEMENT.columnElem j :=
      fun e2 he2 => h e2 (List.mem_cons_of_mem e he2)
    cases htag : tags e with
    | rowElem i =>
      by_cases hlt : i < nF
      · rw [show fillScan nF nC tags (e :: rest) (F, C) =
            fillScan nF nC tags rest (F.set i (Int.ofNat e), C) by simp [fillScan, htag, hlt]]
        exact ih (F.set i (Int.ofNat e)) C hrest
      · rw [show fillScan nF nC tags (e :: rest) (F, C) =
            fillScan nF nC tags rest (F, C) by simp [fillScan, htag, hlt]]
        exact ih F C hrest
    | columnElem j2 =>
      have hne : j2 ≠ j := fun hh => he (by rw [htag, hh])
      by_cases hlt : j2 < nC
      · rw [show fillScan nF nC tags (e :: rest) (F, C) =
            fillScan nF nC tags rest (F, C.set j2 (Int.ofNat e)) by simp [fillScan, htag, hlt]]
        rw [ih F (C.set j2 (Int.ofNat e)) hrest]
        exact List.getElem?_set_ne hne
      · rw [show fillScan nF nC tags (e :: rest) (F, C) =
            fillScan nF nC tags rest (F, C) by simp [fillScan, htag, hlt]]
        exact ih F C hrest
    | invalidElem =>
      rw [show fillScan nF nC tags (e :: rest) (F, C) =
          fillScan nF nC tags rest (F, C) by simp [fillScan, htag]]
      exact ih F C hrest

theorem fillScan_covers_row (nF nC : Nat) (tags : Nat → CMR_ELEMENT) (edges : List Nat)
    (F C : List Int) (i : Nat) (hiF : i < F.length) (hinF : i < nF)
    (hex : ∃ e ∈ edges, tags e = CMR_ELEMENT.rowElem i) :
    ∃ e ∈ edges, tags e = CMR_ELEMENT.rowElem i ∧
      (fillScan nF nC tags edges (F, C)).1[i]? = some (Int.ofNat e) := by
  induction edges generalizing F C with
  | nil => simp at hex
  | cons e rest ih =>
    by_cases hrest : ∃ e2 ∈ rest, tags e2 = CMR_ELEMENT.rowElem i
    · cases htag : tags e with
      | rowElem i2 =>
        by_cases hlt : i2 < nF
        · rw [show fillScan nF nC tags (e :: rest) (F, C) =
              fillScan nF nC tags rest (F.set i2 (Int.ofNat e), C) by simp [fillScan, htag, hlt]]
          obtain ⟨e2, he2, ht2, hget⟩ :=
            ih (F.set i2 (Int.ofNat e)) C (by simpa using hiF) hrest
          exact ⟨e2, List.mem_cons_of_mem e he2, ht2, hget⟩
        · rw [show fillScan nF nC tags (e :: rest) (F, C) =
              fillScan nF nC tags rest (F, C) by simp [fillScan, htag, hlt]]
          obtain ⟨e2, he2, ht2, hget⟩ := ih F C hiF hrest
          exact ⟨e2, List.mem_cons_of_mem e he2, ht2, hget⟩
      | columnElem j =>
        by_cases hlt : j < nC
        · rw [show fillScan nF nC tags (e :: rest) (F, C) =
              fillScan nF nC tags rest (F, C.set j (Int.ofNat e)) by simp [fillScan, htag, hlt]]
          obtain ⟨e2, he2, ht2, hget⟩ := ih F (C.set j (Int.ofNat e)) hiF hrest
          exact ⟨e2, List.mem_cons_of_mem e he2, ht2, hget⟩
        · rw [show fillScan nF nC tags (e :: rest) (F, C) =
              fillScan nF nC tags rest (F, C) by simp [fillScan, htag, hlt]]
          obtain ⟨e2, he2, ht2, hget⟩ := ih F C hiF hrest
          exact ⟨e2, List.mem_cons_of_mem e he2, ht2, hget⟩
      | invalidElem =>
        rw [show fillScan nF nC tags (e :: rest) (F, C) =
            fillScan nF nC tags rest (F, C) by simp [fillScan, htag]]
        obtain ⟨e2, he2, ht2, hget⟩ := ih F C hiF hrest
        exact ⟨e2, List.mem_cons_of_mem e he2, ht2, hget⟩
    · obtain ⟨e0, he0, ht0⟩ := hex
      rcases List.mem_cons.mp he0 with he0e | he0rest
      · subst he0e
        have hnone : ∀ e2 ∈ rest, tags e2 ≠ CMR_ELEMENT.rowElem i := by
          intro e2 he2 ht2
          exact hrest ⟨e2, he2, ht2⟩
        rw [show fillScan nF nC tags (e0 :: rest) (F, C) =
            fillScan nF nC tags rest (F.set i (Int.ofNat e0), C) by
          simp [fillScan, ht0, hinF]]
        refine ⟨e0, List.mem_cons_self e0 rest, ht0, ?_⟩
        rw [fillScan_frame_row nF nC tags rest (F.set i (Int.ofNat e0)) C i hnone]
        exact List.getElem?_set_self (by simpa using hiF)
      · exact absurd ⟨e0, he0rest, ht0⟩ hrest

theorem fillScan_covers_col (nF nC : Nat) (tags : Nat → CMR_ELEMENT) (edges : List Nat)
    (F C : List Int) (j : Nat) (hjC : j < C.length) (hjnC : j < nC)
    (hex : ∃ e ∈ edges, tags e = CMR_ELEMENT.columnElem j) :
    ∃ e ∈ edges, tags e = CMR_ELEMENT.columnElem j ∧
      (fillScan nF nC tags edges (F, C)).2[j]? = some (Int.ofNat e) := by
  induction edges generalizing F C with
  | nil => simp at hex
  | cons e rest ih =>
    by_cases hrest : ∃ e2 ∈ rest, tags e2 = CMR_ELEMENT.columnElem j
    · cases htag : tags e with
      | rowElem i =>
        by_cases hlt : i < nF
        · rw [show fillScan nF nC tags (e :: rest) (F, C) =
              fillScan nF nC tags rest (F.set i (Int.ofNat e), C) by simp [fillScan, htag, hlt]]
          obtain ⟨e2, he2, ht2, hget⟩ := ih (F.set i (Int.ofNat e)) C hjC hrest
          exact ⟨e2, List.mem_cons_of_mem e he2, ht2, hget⟩
        · rw [show fillScan nF nC tags (e :: rest) (F, C) =
              fillScan nF nC tags rest (F, C) by simp [fillScan, htag, hlt]]
          obtain ⟨e2, he2, ht2, hget⟩ := ih F C hjC hrest
          exact ⟨e2, List.mem_cons_of_mem e he2, ht2, hget⟩
      | columnElem j2 =>
        by_cases hlt : j2 < nC
        · rw [show fillScan nF nC tags (e :: rest) (F, C) =
              fillScan nF nC tags rest (F, C.set j2 (Int.ofNat e)) by simp [fillScan, htag, hlt]]
          obtain ⟨e2, he2, ht2, hget⟩ := ih F (C.set j2 (Int.ofNat e)) (by simpa using hjC) hrest
          exact ⟨e2, List.mem_cons_of_mem e he2, ht2, hget⟩
        · rw [show fillScan nF nC tags (e :: rest) (F, C) =
              fillScan nF nC tags rest (F, C) by simp [fillScan, htag, hlt]]
          obtain ⟨e2, he2, ht2, hget⟩ := ih F C hjC hrest
          exact ⟨e2, List.mem_cons_of_mem e he2, ht2, hget⟩
      | invalidElem =>
        rw [show fillScan nF nC tags (e :: rest) (F, C) =
            fillScan nF nC tags rest (F, C) by simp [fillScan, htag]]
        obtain ⟨e2, he2, ht2, hget⟩ := ih F C hjC hrest
        exact ⟨e2, List.mem_cons_of_mem e he2, ht2, hget⟩
    · obtain ⟨e0, he0, ht0⟩ := hex
      rcases List.mem_cons.mp he0 with he0e | he0rest
      · subst he0e
        have hnone : ∀ e2 ∈ rest, tags e2 ≠ CMR_ELEMENT.columnElem j := by
          intro e2 he2 ht2
          exact hrest ⟨e2, he2, ht2⟩
        rw [show fillScan nF nC tags (e0 :: rest) (F, C) =
            fillScan nF nC tags rest (F, C.set j (Int.ofNat e0)) by
          simp [fillScan, ht0, hjnC]]
        refine ⟨e0, List.mem_cons_self e0 rest, ht0, ?_⟩
        rw [fillScan_frame_col nF nC tags rest F (C.set j (Int.ofNat e0)) j hnone]
        exact List.getElem?_set_self (by simpa using hjC)
      · exact absurd ⟨e0, he0rest, ht0⟩ hrest

/-- C5: for a graph whose Row-tagged edges carry exactly the indices 0..k-1 and
whose Column-tagged edges carry exactly the indices 0..m-1 (with k, m the counts
found by the counting scan), the extraction scan leaves every slot of both
arrays holding a correspondingly tagged edge, and no slot remains at the
sentinel -1. -/
theorem forestExtraction_complete (tags : Nat → CMR_ELEMENT) (edges : List Nat) (k m : Nat)
    (hcount : countScan tags edges = (k, m))
    (hrows : ∀ i < k, ∃ e ∈ edges, tags e = CMR_ELEMENT.rowElem i)
    (hcols : ∀ j < m, ∃ e ∈ edges, tags e = CMR_ELEMENT.columnElem j) :
    (∀ i < k, ∃ e ∈ edges, tags e = CMR_ELEMENT.rowElem i ∧
        (forestExtraction tags edges).1[i]? = some (Int.ofNat e)) ∧
    (∀ j < m, ∃ e ∈ edges, tags e = CMR_ELEMENT.columnElem j ∧
        (forestExtraction tags edges).2[j]? = some (Int.ofNat e)) ∧
    (∀ x ∈ (forestExtraction tags edges).1, x ≠ -1) ∧
    (∀ x ∈ (forestExtraction tags edges).2, x ≠ -1) := by
  have hfe : forestExtraction tags edges =
      fillScan k m tags edges (List.replicate k (-1), List.replicate m (-1)) := by
    simp [forestExtraction, hcount]
  have part1 : ∀ i < k, ∃ e ∈ edges, tags e = CMR_ELEMENT.rowElem i ∧
      (forestExtraction tags edges).1[i]? = some (Int.ofNat e) := by
    intro i hi
    rw [hfe]
    exact fillScan_covers_row k m tags edges _ _ i (by simpa using hi) hi (hrows i hi)
  have part2 : ∀ j < m, ∃ e ∈ edges, tags e = CMR_ELEMENT.columnElem j ∧
      (forestExtraction tags edges).2[j]? = some (Int.ofNat e) := by
    intro j hj
    rw [hfe]
    exact fillScan_covers_col k m tags edges _ _ j (by simpa using hj) hj (hcols j hj)
  refine ⟨part1, part2, ?_, ?_⟩
  · intro x hx
    have hlen : (forestExtraction tags edges).1.length = k := by
      rw [hfe]
      simpa using (fillScan_length k m tags edges
        (List.replicate k (-1)) (List.replicate m (-1))).1
    obtain ⟨idx, hidx, hx_eq⟩ := List.mem_iff_getElem.mp hx
    obtain ⟨e, _, _, hget⟩ := part1 idx (by omega)
    rw [List.getElem?_eq_getElem hidx, hx_eq] at hget
    intro hcontra
    have hnn : (0 : Int) ≤ Int.ofNat e := Int.ofNat_nonneg e
    rw [Option.some_inj] at hget
    omega
  · intro x hx
    have hlen : (forestExtraction tags edges).2.length = m := by
      rw [hfe]
      simpa using (fillScan_length k m tags edges
        (List.replicate k (-1)) (List.replicate m (-1))).2
    obtain ⟨idx, hidx, hx_eq⟩ := List.mem_iff_getElem.mp hx
    obtain ⟨e, _, _, hget⟩ := part2 idx (by omega)
    rw [List.getElem?_eq_getElem hidx, hx_eq] at hget
    intro hcontra
    have hnn : (0 : Int) ≤ Int.ofNat e := Int.ofNat_nonneg e
    rw [Option.some_inj] at hget
    omega

/-- C5 witness: the concrete tagging with Row 0, Column 0, Row 1 on edges
0, 1, 2 satisfies the hypotheses, and extraction fills every slot. -/
theorem forestExtraction_complete_witness :
    countScan cexTags [0, 1, 2] = (2, 1) ∧
    (∀ i < 2, ∃ e ∈ [0, 1, 2], cexTags e = CMR_ELEMENT.rowElem i) ∧
    (∀ j < 1, ∃ e ∈ [0, 1, 2], cexTags e = CMR_ELEMENT.columnElem j) ∧
    ((∀ i < 2, ∃ e ∈ [0, 1, 2], cexTags e = CMR_ELEMENT.rowElem i ∧
        (forestExtraction cexTags [0, 1, 2]).1[i]? = some (Int.ofNat e)) ∧
     (∀ j < 1, ∃ e ∈ [0, 1, 2], cexTags e = CMR_ELEMENT.columnElem j ∧
        (forestExtraction cexTags [0, 1, 2]).2[j]? = some (Int.ofNat e)) ∧
     (∀ x ∈ (forestExtraction cexTags [0, 1, 2]).1, x ≠ -1) ∧
     (∀ x ∈ (forestExtraction cexTags [0, 1, 2]).2, x ≠ -1)) :=
  ⟨by decide, by decide, by decide,
    forestExtraction_complete cexTags [0, 1, 2] 2 1 (by decide) (by decide) (by decide)⟩

/-- C6: an edge whose Row tag index is at least numForestEdges, or whose Column
tag index is at least numCoforestEdges, or which is untagged, is skipped by the
extraction scan: processing it leaves the scan state exactly as if the edge were
absent, so no slot of either array is written. -/
theorem fillScan_skips_out_of_range (nF nC : Nat) (tags : Nat → CMR_ELEMENT) (e : Nat)
    (rest : List Nat) (F C : List Int)
    (h : (∃ i, tags e = CMR_ELEMENT.rowElem i ∧ nF ≤ i) ∨
         (∃ j, tags e = CMR_ELEMENT.columnElem j ∧ nC ≤ j) ∨
         tags e = CMR_ELEMENT.invalidElem) :
    fillScan nF nC tags (e :: rest) (F, C) = fillScan nF nC tags rest (F, C) := by
  rcases h with ⟨i, ht, hge⟩ | ⟨j, ht, hge⟩ | ht
  · simp [fillScan, ht, Nat.not_lt.mpr hge]
  · simp [fillScan, ht, Nat.not_lt.mpr hge]
  · simp [fillScan, ht]

/-- C6 witness: edge 5 tagged Row 7 with numForestEdges = 2 is skipped by the
scan. -/
theorem fillScan_skips_out_of_range_witness :
    ((∃ i, cexOutOfRangeTags 5 = CMR_ELEMENT.rowElem i ∧ 2 ≤ i) ∨
     (∃ j, cexOutOfRangeTags 5 = CMR_ELEMENT.columnElem j ∧ 1 ≤ j) ∨
     cexOutOfRangeTags 5 = CMR_ELEMENT.invalidElem) ∧
    fillScan 2 1 cexOutOfRangeTags (5 :: [0]) ([-1, -1], [-1]) =
      fillScan 2 1 cexOutOfRangeTags [0] ([-1, -1], [-1]) :=
  ⟨Or.inl ⟨7, rfl, by decide⟩,
    fillScan_skips_out_of_range 2 1 cexOutOfRangeTags 5 [0] [-1, -1] [-1]
      (Or.inl ⟨7, rfl, by decide⟩)⟩

/-- C9 counterexample: an invocation with no arguments exits non-zero (the
usage path returns EXIT_FAILURE) although no input error and no memory error
occurs — the conversion is never invoked, so its error code is CMR_OKAY. -/
theorem mainExitCode_usage_cex :
    mainExitCode [] CMR_ERROR.CMR_OKAY ≠ 0 := by
  simp [mainExitCode, parseLoop, initialOptions]

/-- C9 (amended): the exit code is non-zero exactly when the command line is
rejected (unknown format, two input files, missing input file, incompatible
input/output format combination) or the conversion reports an input or memory
error; it is zero otherwise, including for -h and for any other conversion
error code. -/
theorem mainExitCode_characterization (args : List String) (err : CMR_ERROR) :
    mainExitCode args err ≠ 0 ↔
      (parseLoop args initialOptions = ArgvOutcome.usageExit ∨
       ∃ opts, parseLoop args initialOptions = ArgvOutcome.runConversion opts ∧
         (opts.instanceFileName = none ∨
          resolveFormats opts.inputFormat opts.outputFormat = ResolveOutcome.usage ∨
          err = CMR_ERROR.CMR_ERROR_INPUT ∨ err = CMR_ERROR.CMR_ERROR_MEMORY)) := by
  unfold mainExitCode
  cases hp : parseLoop args initialOptions with
  | helpExit => simp
  | usageExit => simp
  | runConversion opts =>
    simp only [ArgvOutcome.runConversion.injEq, exists_eq_left', reduceCtorEq, false_or]
    cases hf : opts.instanceFileName with
    | none => simp [hf]
    | some name =>
      cases hr : resolveFormats opts.inputFormat opts.outputFormat with
      | usage => simp [hr]
      | resolved fin fout =>
        cases err <;> simp [hr]
